import Mathlib

/-!
Verification of the mega client library (storage / sync engine / API transport).

The definitions below are a shallow embedding of the JavaScript source:
`storage.mjs` (Storage class: reload / _importFile / getAccountInfo /
toJSON / fromJSON) and `api.mjs` (API class: request / pull, retry policy,
error table).  File handles are strings; the in-memory file graph
`this.files` is an association list from handle to node; JavaScript
`undefined` is `Option.none`; a thrown `TypeError` (property access on
`undefined`) makes an operation return `none`.
-/

set_option autoImplicit false

namespace Mega

/-- A node of the in-memory file graph.  Mirrors the fields of a
`MutableFile` object that the sync engine in `storage.mjs` reads or writes:
`parent` is the handle of the parent node (`undefined` for roots and
orphans), `children` is the child list (`undefined` until first assigned,
exactly as in the JS code which checks `if (!parent.children)`),
`timestamp` and `attrs` are the fields written by the `'u'` handler
(attribute decryption itself lives in `mutable-file.mjs`, outside the
sync engine; we store the raw payload), `ntype` is the node type `f.t`. -/
structure FNode where
  parent : Option String
  children : Option (List String)
  timestamp : Nat
  attrs : String
  ntype : Int
deriving Repr, DecidableEq

/-- A server node record, as consumed by `Storage._importFile` and by the
nested list of a `'t'` change action: `h` is the handle, `p` the parent
handle (may be absent), `t` the node type. -/
structure FileRec where
  h : String
  p : Option String
  t : Int
deriving Repr, DecidableEq

/-- Reads `parent.children` through the JS idiom
`if (!parent.children) parent.children = []` — the child list, or `[]`
when it was never assigned. -/
def childList (n : FNode) : List String :=
  match n.children with
  | none => []
  | some l => l

/-- Association-list lookup, modelling `this.files[h]`. -/
def lookupA (g : List (String × FNode)) (h : String) : Option FNode :=
  match g with
  | [] => none
  | e :: r => if e.1 = h then some e.2 else lookupA r h

/-- In-place update of the node stored at handle `h`, modelling a mutation
of the object `this.files[h]` (JS objects keep their key order). -/
def modifyA (g : List (String × FNode)) (h : String) (f : FNode → FNode) :
    List (String × FNode) :=
  g.map (fun e => if e.1 = h then (e.1, f e.2) else e)

/-- Models `children.splice(children.indexOf(x), 1)`: removes the first occurrence
of `x` when present; when `indexOf` returns `-1`, `splice(-1, 1)` removes
the LAST element of the array (and nothing on an empty array). -/
def spliceIndexOf (l : List String) (x : String) : List String :=
  if x ∈ l then l.erase x else l.dropLast

/-- Storage-level events emitted by the sync engine
(`this.emit('update' | 'move' | 'add' | 'delete', ...)`). -/
inductive SEvent where
  | update (h : String)
  | move (h : String) (oldparent : String)
  | add (h : String)
  | del (h : String)
deriving Repr, DecidableEq

/-- The part of a `Storage` instance that the sync engine mutates:
`files` is the handle-indexed graph, `mounts`/`root`/`trash`/`inbox` are
written by `_importFile`, `events` records the storage-level events in
emission order. -/
structure StorageSt where
  files : List (String × FNode)
  mounts : List String
  root : Option String
  trash : Option String
  inbox : Option String
  events : List SEvent
deriving Repr, DecidableEq

/-- The fresh node object built by `new MutableFile(f, this)` for the
graph-relevant fields: no parent, no child list yet, type from the
record.  (MutableFile itself lives in `mutable-file.mjs`, outside the
sync engine; only these fields are read by `storage.mjs`.) -/
def newNode (t : Int) : FNode :=
  { parent := none, children := none, timestamp := 0, attrs := "", ntype := t }

/-- Node import, `Storage._importFile(f)` (storage.mjs lines 230-261): if the handle is
new, create the node, classify drive/trash/inbox roots (node types 2/4/3),
push top-level nodes (`f.t > 1`) onto `mounts`, and link under the parent
only if the parent is already present (issue 58: otherwise the node is
left unlinked — an orphan).  Returns the updated state; the JS return
value is `this.files[f.h]`. -/
def importFile (st : StorageSt) (f : FileRec) : StorageSt :=
  match lookupA st.files f.h with
  | some _ => st
  | none =>
    let node := newNode f.t
    let files1 := st.files ++ [(f.h, node)]
    let root1 := if f.t = 2 then some f.h else st.root
    let inbox1 := if f.t = 3 then some f.h else st.inbox
    let trash1 := if f.t = 4 then some f.h else st.trash
    let mounts1 := if f.t > 1 then st.mounts ++ [f.h] else st.mounts
    match f.p with
    | none =>
      { st with files := files1, root := root1, trash := trash1,
                inbox := inbox1, mounts := mounts1 }
    | some p =>
      match lookupA files1 p with
      | none =>
        { st with files := files1, root := root1, trash := trash1,
                  inbox := inbox1, mounts := mounts1 }
      | some pn =>
        let files2 := modifyA files1 p (fun x => { x with children := some (childList pn ++ [f.h]) })
        let files3 := modifyA files2 f.h (fun x => { x with parent := some p })
        { st with files := files3, root := root1, trash := trash1,
                  inbox := inbox1, mounts := mounts1 }

/-- Initial listing import, `response.f.forEach(file => this._importFile(file))` — the initial
load imports node records in the order received. -/
def importFiles (st : StorageSt) (recs : List FileRec) : StorageSt :=
  recs.foldl importFile st

/-- A change action from an `'sc'` batch: `u` (attribute update), `d`
(deletion, buffered), `t` (creation/move carrying a nested node list
`o.t.f`). -/
inductive SCAction where
  | u (n : String) (ts : Nat) (atr : String)
  | d (n : String)
  | t (moves : List FileRec)
deriving Repr, DecidableEq

/-- One entry of the `o.t.f.forEach` loop in the `'sc'` handler
(storage.mjs lines 198-214).  `del` is the pending-delete set `deleted`
(kept in insertion order like JS object keys).  Returns `none` when the JS
code would throw a `TypeError` (property access on `undefined`): an orphan
file with no `parent`, an old parent without a `children` array, or a move
to an unknown new parent (`this.files[f.p]` is `undefined`, so
`file.parent.children` throws). -/
def scMove (st : StorageSt) (del : List String) (f : FileRec) :
    Option (StorageSt × List String) :=
  match lookupA st.files f.h with
  | some file =>
    let del1 := del.erase f.h
    match file.parent with
    | none => none
    | some opH =>
      if some opH = f.p then some (st, del1)
      else
        match lookupA st.files opH with
        | none => none
        | some op =>
          match op.children with
          | none => none
          | some cs =>
            let files1 := modifyA st.files opH
              (fun x => { x with children := some (spliceIndexOf cs f.h) })
            match f.p with
            | none => none
            | some npH =>
              match lookupA files1 npH with
              | none => none
              | some np =>
                let files2 := modifyA files1 f.h (fun x => { x with parent := some npH })
                let files3 := modifyA files2 npH (fun x => { x with children := some (childList np ++ [f.h]) })
                some ({ st with files := files3,
                                events := st.events ++ [SEvent.move f.h opH] }, del1)
  | none =>
    let st1 := importFile st f
    some ({ st1 with events := st1.events ++ [SEvent.add f.h] }, del)

/-- The `o.t.f.forEach` loop over a nested move list. -/
def scMovesRun (st : StorageSt) (del : List String) :
    List FileRec → Option (StorageSt × List String)
  | [] => some (st, del)
  | f :: rest =>
    match scMove st del f with
    | none => none
    | some (st1, del1) => scMovesRun st1 del1 rest

/-- First phase of the `'sc'` handler (`arr.forEach`, storage.mjs lines
186-216): scan the batch, applying `u` updates immediately, buffering `d`
handles in `del`, and processing `t` move lists. -/
def scScan (st : StorageSt) (del : List String) :
    List SCAction → Option (StorageSt × List String)
  | [] => some (st, del)
  | SCAction.u n ts atr :: rest =>
    match lookupA st.files n with
    | some _ =>
      let files1 := modifyA st.files n (fun x => { x with timestamp := ts, attrs := atr })
      scScan { st with files := files1, events := st.events ++ [SEvent.update n] } del rest
    | none => scScan st del rest
  | SCAction.d n :: rest =>
    scScan st (if n ∈ del then del else del ++ [n]) rest
  | SCAction.t moves :: rest =>
    match scMovesRun st del moves with
    | none => none
    | some (st1, del1) => scScan st1 del1 rest

/-- Second phase of the `'sc'` handler (`Object.keys(deleted).forEach`,
storage.mjs lines 218-224): every handle still marked deleted is detached
from its parent's child list and a delete event is emitted.  A handle not
in `this.files` makes `this.files[n].parent` throw a `TypeError`
(returns `none`); likewise an absent `parent` or `parent.children`. -/
def scFinalize (st : StorageSt) : List String → Option StorageSt
  | [] => some st
  | n :: rest =>
    match lookupA st.files n with
    | none => none
    | some file =>
      match file.parent with
      | none => none
      | some pH =>
        match lookupA st.files pH with
        | none => none
        | some pn =>
          match pn.children with
          | none => none
          | some cs =>
            let files1 := modifyA st.files pH
              (fun x => { x with children := some (spliceIndexOf cs n) })
            scFinalize { st with files := files1, events := st.events ++ [SEvent.del n] } rest

/-- The complete `'sc'` batch handler registered by `Storage.reload`
(storage.mjs lines 184-225): scan all actions, then finalize the pending
deletions. -/
def applySC (st : StorageSt) (arr : List SCAction) : Option StorageSt :=
  match scScan st [] arr with
  | none => none
  | some (st1, del1) => scFinalize st1 del1

/-! ## API transport (api.mjs) -/

/-- Retry ceiling, `const MAX_RETRIES = 4` (api.mjs line 8). -/
def MAX_RETRIES : Nat := 4

/-- The `ERRORS` table (api.mjs lines 9-28), indexed by the negated error
code; `none` for codes outside the table (JS yields `undefined`). -/
def ERRORS (k : Nat) : Option String :=
  match k with
  | 1 => some ("EINTERNAL (-1): An internal error has occurred. Please submit a bug report, detailing the exact circumstances in which this error occurred.")
  | 2 => some ("EARGS (-2): You have passed invalid arguments to this command.")
  | 3 => some ("EAGAIN (-3): A temporary congestion or server malfunction prevented your request from being processed. No data was altered. Retried 4 times.")
  | 4 => some ("ERATELIMIT (-4): You have exceeded your command weight per time quota. Please wait a few seconds, then try again (this should never happen in sane real-life applications).")
  | 5 => some ("EFAILED (-5): The upload failed. Please restart it from scratch.")
  | 6 => some ("ETOOMANY (-6): Too many concurrent IP addresses are accessing this upload target URL.")
  | 7 => some ("ERANGE (-7): The upload file packet is out of range or not starting and ending on a chunk boundary.")
  | 8 => some ("EEXPIRED (-8): The upload target URL you are trying to access has expired. Please request a fresh one.")
  | 9 => some ("ENOENT (-9): Object (typically, node or user) not found. Wrong password?")
  | 10 => some ("ECIRCULAR (-10): Circular linkage attempted")
  | 11 => some ("EACCESS (-11): Access violation (e.g., trying to write to a read-only share)")
  | 12 => some ("EEXIST (-12): Trying to create an object that already exists")
  | 13 => some ("EINCOMPLETE (-13): Trying to access an incomplete resource")
  | 14 => some ("EKEY (-14): A decryption operation failed (never returned by the API)")
  | 15 => some ("ESID (-15): Invalid or expired user session, please relogin")
  | 16 => some ("EBLOCKED (-16): User blocked")
  | 17 => some ("EOVERQUOTA (-17): Request over quota")
  | 18 => some ("ETEMPUNAVAIL (-18): Resource temporarily not available, please try again later")
  | _ => none

/-- Message of `Error(ERRORS[-resp])`: `Error(undefined)` has the message
string rendered from `undefined`. -/
def errMsg (k : Nat) : String :=
  match ERRORS k with
  | some s => s
  | none => "undefined"

/-- One server answer to an attempt of a unary request, after
`handleApiResponse` and the single-element array unwrapping
(`if (resp.length) resp = resp[0]`): either a bare number (error codes)
or a JSON object whose `sn` field may be present. -/
inductive ApiResp where
  | code (n : Int)
  | payload (sn : Option String)
deriving Repr, DecidableEq

/-- Final outcome of a unary request as observed through the callback. -/
inductive ReqOutcome where
  | ok (sn : Option String)
  | fail (msg : String)
  | hang
deriving Repr, DecidableEq

/-- Observable trace of one unary request: the `setTimeout` delays (in
milliseconds) of the scheduled retries, the arguments of the `this.pull`
invocations triggered by keepalive, and the callback outcome. -/
structure ReqTrace where
  delays : List Nat
  pulls : List String
  outcome : ReqOutcome
deriving Repr, DecidableEq

/-- Retry and dispatch logic of `API.request` (api.mjs lines 88-107), run against
a script of successive server answers (one per attempt).  A negative
numeric response equal to −3 with `retryno < MAX_RETRIES` schedules
`this.request(json, cb, retryno + 1)` after `2^(retryno+1) * 1e3` ms;
other negative numbers (or an exhausted retry budget) produce
`Error(ERRORS[-resp])`.  A non-negative answer is delivered via the
callback; when `keepalive` is set and the response object has a truthy
`sn` field, `this.pull(resp.sn)` is invoked first — with no check of
whether a poll loop is already running. -/
def requestRun (keepalive : Bool) : List ApiResp → Nat → ReqTrace
  | [], _ => { delays := [], pulls := [], outcome := ReqOutcome.hang }
  | ApiResp.code n :: rest, retryno =>
    if n < 0 then
      if n = -3 then
        if retryno < MAX_RETRIES then
          let t := requestRun keepalive rest (retryno + 1)
          { t with delays := 2 ^ (retryno + 1) * 1000 :: t.delays }
        else
          { delays := [], pulls := [], outcome := ReqOutcome.fail (errMsg (-n).toNat) }
      else
        { delays := [], pulls := [], outcome := ReqOutcome.fail (errMsg (-n).toNat) }
    else
      -- a bare non-negative number has no `sn` field, so no pull
      { delays := [], pulls := [], outcome := ReqOutcome.ok none }
  | ApiResp.payload sn :: _, _ =>
    let pulls :=
      match sn with
      | some s => if keepalive ∧ s ≠ "" then [s] else []
      | none => []
    { delays := [], pulls := pulls, outcome := ReqOutcome.ok sn }

/-- Pull invocations accumulated over a sequence of unary requests, each
answered by its own response script.  Each `this.pull(sn)` call starts an
independent long-poll loop; `api.mjs` keeps no record of a running loop
(it only overwrites the abort handle `this.sn`), so invocations are never
suppressed. -/
def unaryPulls (keepalive : Bool) (scripts : List (List ApiResp)) : List String :=
  (scripts.map (fun s => (requestRun keepalive s 0).pulls)).flatten

/-- IEEE-754 double post-increment on the request counter.  JavaScript
`this.counterId++` applies numeric conversion and addition of 1, which is
exact for integers below `2^53`; at `2^53` the increment rounds back to
`2^53` (ties-to-even) and the counter stops advancing.  Every theorem
about the counter stays inside the exact range. -/
def jsInc (x : Nat) : Nat := if x < 2 ^ 53 then x + 1 else x

/-- The query-string assembly of `API.request` (api.mjs lines 68-71):
`qs = { id: (this.counterId++).toString() }`, then `qs.sid = this.sid` if
the session id is truthy. -/
def requestQS (sid : Option String) (counter : Nat) : List (String × String) :=
  ("id", toString counter) ::
    (match sid with
     | some s => if s ≠ "" then [("sid", s)] else []
     | none => [])

/-- The ids attached by `n` successive `request` calls on one API
instance whose counter currently holds `c0`: each call uses the current
value and post-increments it. -/
def requestIds (c0 : Nat) : Nat → List Nat
  | 0 => []
  | n + 1 => c0 :: requestIds (jsInc c0) n

/-! ## Reload listener accumulation (storage.mjs line 184)

`Storage.reload` ends with `this.api.on('sc', handler)`; Node's
`EventEmitter.on` appends the listener and `emit` runs the listeners in
registration order, stopping (and rethrowing) if one throws.  Every call
to `reload` registers the same closure once more, so we model the
listener list by the number of registered copies. -/

/-- Listener registration, `this.api.on('sc', ...)` — appends one more copy of the handler. -/
def reloadOnSc (listeners : Nat) : Nat := listeners + 1

/-- Number of `'sc'` listeners after `n` calls to `reload` on a fresh
Storage (no other code registers `'sc'` listeners). -/
def afterReloads : Nat → Nat
  | 0 => 0
  | n + 1 => reloadOnSc (afterReloads n)

/-- Emission, `EventEmitter.emit('sc', arr)` with `listeners` registered copies of
the batch handler: each copy processes the batch in turn; a thrown
`TypeError` aborts the emission (and skips the remaining copies). -/
def emitSc (listeners : Nat) (arr : List SCAction) (st : StorageSt) : Option StorageSt :=
  match listeners with
  | 0 => some st
  | k + 1 =>
    match applySC st arr with
    | none => none
    | some st1 => emitSc k arr st1

/-! ## base64url (`e64` / `d64`)

Modelled from the spec: the session snapshot stores the
"base64url-encoded master key"; the encoder `e64` and decoder `d64` live
in `crypto/index.mjs`, which is not part of the sources under
verification.  Standard base64 with the URL alphabet
(`A-Z a-z 0-9 - _`) and no padding, over byte lists. -/

/-- Big-endian packing of bytes into 6-bit groups, 3 bytes to 4 sextets;
a 1-byte tail yields 2 sextets, a 2-byte tail 3 sextets. -/
def bytesToSextets : List Nat → List Nat
  | [] => []
  | [a] => [a / 4, a % 4 * 16]
  | [a, b] => [a / 4, a % 4 * 16 + b / 16, b % 16 * 4]
  | a :: b :: c :: rest =>
    a / 4 :: (a % 4 * 16 + b / 16) :: (b % 16 * 4 + c / 64) :: c % 64 :: bytesToSextets rest

/-- Inverse unpacking, 4 sextets to 3 bytes; tails of 2 or 3 sextets
yield 1 or 2 bytes (a 1-sextet tail is not produced by the encoder). -/
def sextetsToBytes : List Nat → List Nat
  | [] => []
  | [_] => []
  | [w, x] => [w * 4 + x / 16]
  | [w, x, y] => [w * 4 + x / 16, x % 16 * 16 + y / 4]
  | w :: x :: y :: z :: rest =>
    (w * 4 + x / 16) :: (x % 16 * 16 + y / 4) :: (y % 4 * 64 + z) :: sextetsToBytes rest

/-- The base64url alphabet, position `n` for sextet value `n`. -/
def ofSextet (n : Nat) : Char :=
  Char.ofNat
    (if n < 26 then 65 + n
     else if n < 52 then 97 + (n - 26)
     else if n < 62 then 48 + (n - 52)
     else if n = 62 then 45
     else 95)

/-- Inverse of the alphabet (total; characters outside the alphabet map
to 63, matching a lenient decoder — never hit on encoder output). -/
def toSextet (c : Char) : Nat :=
  let k := c.toNat
  if 65 ≤ k ∧ k ≤ 90 then k - 65
  else if 97 ≤ k ∧ k ≤ 122 then 26 + (k - 97)
  else if 48 ≤ k ∧ k ≤ 57 then 52 + (k - 48)
  else if k = 45 then 62
  else 63

/-- Encoder `e64(buffer)`: base64url string of a byte list. -/
def e64 (bytes : List Nat) : String :=
  String.mk ((bytesToSextets bytes).map ofSextet)

/-- Decoder `d64(string)`: byte list decoded from a base64url string. -/
def d64 (s : String) : List Nat :=
  sextetsToBytes (s.data.map toSextet)

/-! ## Storage session snapshot (storage.mjs lines 9-39, 310-333) -/

/-- The options bag after the constructor's defaulting
(`keepalive`/`autoload`/`autologin` default to `true`). -/
structure SOptions where
  keepalive : Bool
  autoload : Bool
  autologin : Bool
  email : Option String
deriving Repr, DecidableEq

/-- The session-level fields of a `Storage` instance: the decrypted
master `key`, the session id `sid` (also copied onto `this.api.sid`),
account `name` and user id `user`, the options bag, the `status` string,
and whether the constructor invoked `login` (which would re-run key
derivation). -/
structure StorageSession where
  key : List Nat
  sid : Option String
  name : String
  user : String
  options : SOptions
  status : String
  apiSid : Option String
  loginStarted : Bool
deriving Repr, DecidableEq

/-- The plain object produced by `Storage.toJSON`. -/
structure SJson where
  key : String
  sid : Option String
  name : String
  user : String
  options : SOptions
deriving Repr, DecidableEq

/-- Snapshot export, `Storage.toJSON` (storage.mjs lines 310-318). -/
def toJSON (s : StorageSession) : SJson :=
  { key := e64 s.key, sid := s.sid, name := s.name, user := s.user,
    options := s.options }

/-- Constructor `new Storage(options)` restricted to the session fields (storage.mjs
lines 9-39): status starts `closed`; with `autologin` set, `login` runs
(key derivation, `us0`/`us` requests) and flips the status to
`connecting` when an email is configured; otherwise the callback fires on
the next tick with the storage as-is. -/
def storageNew (options : SOptions) : StorageSession :=
  { key := [], sid := none, name := "", user := "",
    options := options,
    status :=
      if options.autologin ∧ options.email ≠ none then "connecting" else "closed",
    apiSid := none,
    loginStarted := options.autologin }

/-- Snapshot import, `Storage.fromJSON` (storage.mjs lines 320-333): construct with
`autoload`/`autologin` forced off, then restore the key (via `d64`), the
session id (also onto `this.api.sid`), name and user.  (`storage.aes` is
rebuilt from the key in `crypto/index.mjs`, outside these sources.) -/
def fromJSON (j : SJson) : StorageSession :=
  let opts : SOptions := { j.options with autoload := false, autologin := false }
  let s0 := storageNew opts
  { s0 with key := d64 j.key, sid := j.sid, apiSid := j.sid,
            name := j.name, user := j.user }

/-! ## getAccountInfo (storage.mjs lines 288-308) -/

/-- The quota response fields read by `getAccountInfo`; `none` models an
absent field.  (JS numbers here are non-negative integers.) -/
structure UQResp where
  utype : Option Nat
  cstrg : Option Nat
  mstrg : Option Nat
  mxfer : Option Nat
  caxfer : Option Nat
  csxfer : Option Nat
  srvratio : Option Nat
deriving Repr, DecidableEq

/-- JavaScript `a || b` on an optional numeric field: `undefined` and `0`
are falsy and select the default. -/
def jsOr (a : Option Nat) (b : Nat) : Nat :=
  match a with
  | none => b
  | some 0 => b
  | some n => n

/-- The normalized account object built by `getAccountInfo`
(storage.mjs lines 293-302). -/
structure Account where
  type : Option Nat
  spaceUsed : Option Nat
  spaceTotal : Option Nat
  downloadBandwidthTotal : Nat
  downloadBandwidthUsed : Nat
  sharedBandwidthUsed : Nat
  sharedBandwidthLimit : Option Nat
deriving Repr, DecidableEq

/-- The account normalization (storage.mjs lines 296-302):
`mxfer || Math.pow(1024, 5) * 10`, `caxfer || 0`, `csxfer || 0`. -/
def normalizeAccount (r : UQResp) : Account :=
  { type := r.utype, spaceUsed := r.cstrg, spaceTotal := r.mstrg,
    downloadBandwidthTotal := jsOr r.mxfer (1024 ^ 5 * 10),
    downloadBandwidthUsed := jsOr r.caxfer 0,
    sharedBandwidthUsed := jsOr r.csxfer 0,
    sharedBandwidthLimit := r.srvratio }

/-- What the response callback of the `uq` request can observe. -/
inductive CbCall where
  | fail (e : String)
  | done (a : Account)
deriving Repr, DecidableEq

/-- The `uq` response value handed to the callback: absent on a
transport-level failure (`cb(err)`), a bare number on an exhausted-retry
application error (`cb(err, resp)` with `resp` numeric), or a quota
object. -/
inductive UQValue where
  | num (n : Int)
  | obj (r : UQResp)
deriving Repr, DecidableEq

/-- Reading a quota field off the response value: a number has no such
properties (yields `undefined`), an object yields its field. -/
def uqField (v : UQValue) (f : UQResp → Option Nat) : Option Nat :=
  match v with
  | UQValue.num _ => none
  | UQValue.obj r => f r

/-- The `uq` response handler of `getAccountInfo` (storage.mjs lines
291-305), faithfully including the missing `return` after `cb(err)`: on
an error the callback is invoked with the error, execution FALLS THROUGH
into the normalization, which reads `response.utype` etc.; when the
response is absent (`undefined`) that property access throws a
`TypeError` (second component `true`), otherwise `cb(null, account)` runs
as well.  Returns the callback invocations in order plus the thrown
flag. -/
def getAccountInfoHandler (err : Option String) (response : Option UQValue) :
    List CbCall × Bool :=
  let calls0 : List CbCall :=
    match err with
    | some e => [CbCall.fail e]
    | none => []
  match response with
  | none => (calls0, true)
  | some v =>
    let account : Account :=
      { type := uqField v UQResp.utype,
        spaceUsed := uqField v UQResp.cstrg,
        spaceTotal := uqField v UQResp.mstrg,
        downloadBandwidthTotal := jsOr (uqField v UQResp.mxfer) (1024 ^ 5 * 10),
        downloadBandwidthUsed := jsOr (uqField v UQResp.caxfer) 0,
        sharedBandwidthUsed := jsOr (uqField v UQResp.csxfer) 0,
        sharedBandwidthLimit := uqField v UQResp.srvratio }
    (calls0 ++ [CbCall.done account], false)

/-! ## Concrete fixtures -/

/-- Handle of the moved/deleted node in the examples. -/
def hH : String := "H"

/-- Handle of the old parent in the examples. -/
def hP1 : String := "P1"

/-- Handle of the new parent in the examples. -/
def hP2 : String := "P2"

/-- A handle absent from every example graph. -/
def hX : String := "X"

def nodeP1 : FNode :=
  { parent := none, children := some [hH], timestamp := 0, attrs := "", ntype := 1 }

def nodeP2 : FNode :=
  { parent := none, children := some [], timestamp := 0, attrs := "", ntype := 1 }

def nodeH : FNode :=
  { parent := some hP1, children := none, timestamp := 0, attrs := "", ntype := 0 }

/-- A three-node graph: directories `P1` and `P2` at top level, file `H`
inside `P1`. -/
def sampleState : StorageSt :=
  { files := [(hP1, nodeP1), (hP2, nodeP2), (hH, nodeH)],
    mounts := [], root := none, trash := none, inbox := none, events := [] }

/-- The `'t'`-carried node record relocating `H` into `P2`. -/
def mvRec : FileRec := { h := hH, p := some hP2, t := 0 }

/-- End state of `applySC sampleState [t [mvRec], d hH]`: the move ran
first (splicing `H` out of `P1` and pushing it into `P2`), then the
delete finalization spliced `H` back out of `P2` and emitted a delete
event. -/
def c1EndState : StorageSt :=
  { files := [(hP1, { nodeP1 with children := some [] }),
              (hP2, { nodeP2 with children := some [] }),
              (hH, { nodeH with parent := some hP2 })],
    mounts := [], root := none, trash := none, inbox := none,
    events := [SEvent.move hH hP1, SEvent.del hH] }

/-- End state of one application of the move batch `[t [mvRec]]` to
`sampleState`. -/
def c9EndState : StorageSt :=
  { files := [(hP1, { nodeP1 with children := some [] }),
              (hP2, { nodeP2 with children := some [hH] }),
              (hH, { nodeH with parent := some hP2 })],
    mounts := [], root := none, trash := none, inbox := none,
    events := [SEvent.move hH hP1] }

/-- Root handle for the orphan-import example. -/
def hR : String := "R"

/-- Child handle for the orphan-import example. -/
def hC : String := "C"

/-- Parent handle for the orphan-import example. -/
def hP : String := "P"

/-- A graph holding only the cloud-drive root `R`. -/
def rootState : StorageSt :=
  { files := [(hR, { parent := none, children := some [], timestamp := 0,
                     attrs := "", ntype := 2 })],
    mounts := [], root := some hR, trash := none, inbox := none, events := [] }

/-- Child record naming the not-yet-imported parent `P`. -/
def cRec : FileRec := { h := hC, p := some hP, t := 0 }

/-- Parent record (a folder inside the root). -/
def pRec : FileRec := { h := hP, p := some hR, t := 1 }

/-- End state of importing the child record before its parent record: the
child stays an orphan (`parent := none`) and the parent, imported later,
has no children — `_importFile` never links retroactively. -/
def c2EndState : StorageSt :=
  { files := [(hR, { parent := none, children := some [hP], timestamp := 0,
                     attrs := "", ntype := 2 }),
              (hC, { parent := none, children := none, timestamp := 0,
                     attrs := "", ntype := 0 }),
              (hP, { parent := some hR, children := none, timestamp := 0,
                     attrs := "", ntype := 1 })],
    mounts := [], root := some hR, trash := none, inbox := none, events := [] }

/-- First sequence number in the pull-activation example. -/
def sn1 : String := "s1"

/-- Second sequence number in the pull-activation example. -/
def sn2 : String := "s2"

/-- A concrete logged-in session for the snapshot roundtrip. -/
def sampleSession : StorageSession :=
  { key := [7, 0, 255, 128, 33, 9, 64, 100, 200, 250, 1, 2, 3, 4, 5, 6],
    sid := some "AWlkc2Vzc2lvbg",
    name := "Alice Example",
    user := "u123",
    options := { keepalive := true, autoload := true, autologin := true,
                 email := some "alice@example.com" },
    status := "ready",
    apiSid := some "AWlkc2Vzc2lvbg",
    loginStarted := true }

/-! ## Association-list helper lemmas -/

theorem lookupA_modifyA (g : List (String × FNode)) (k h : String) (f : FNode → FNode) :
    lookupA (modifyA g k f) h =
      if h = k then (lookupA g h).map f else lookupA g h := by
  induction g with
  | nil => by_cases hk : h = k <;> simp [lookupA, modifyA, hk]
  | cons e r ih =>
    obtain ⟨a, v⟩ := e
    by_cases he : a = k
    · subst he
      by_cases hh : a = h
      · subst hh
        simp [lookupA, modifyA] at ih ⊢
      · have hh2 : ¬ h = a := fun hx => hh hx.symm
        simp [lookupA, modifyA, hh, hh2] at ih ⊢
        exact ih
    · by_cases hh : a = h
      · subst hh
        have hk2 : ¬ a = k := he
        simp [lookupA, modifyA, hk2] at ih ⊢
      · simp [lookupA, modifyA, he, hh] at ih ⊢
        exact ih

theorem lookupA_append (g1 g2 : List (String × FNode)) (h : String) :
    lookupA (g1 ++ g2) h =
      match lookupA g1 h with
      | some v => some v
      | none => lookupA g2 h := by
  induction g1 with
  | nil => simp [lookupA]
  | cons e r ih =>
    simp only [List.cons_append, lookupA]
    by_cases he : e.1 = h
    · simp [he]
    · simp [he, ih]

/-! ## Claim theorems -/

/-- C3: a unary request answered −3 three times and then successfully
schedules exactly 3 delayed retries, with delays 2, 4 and 8 seconds
(2000/4000/8000 ms) before the success is delivered; answered −3 five
times, it fails after exactly 4 retries (delays 2, 4, 8, 16 s) with the
EAGAIN/ServerUnavailable error text of the `ERRORS` table. -/
theorem c3_retry_policy :
    requestRun false
        [ApiResp.code (-3), ApiResp.code (-3), ApiResp.code (-3), ApiResp.payload none] 0 =
      { delays := [2000, 4000, 8000], pulls := [], outcome := ReqOutcome.ok none } ∧
    requestRun false (List.replicate 5 (ApiResp.code (-3))) 0 =
      { delays := [2000, 4000, 8000, 16000], pulls := [],
        outcome := ReqOutcome.fail (errMsg 3) } ∧
    errMsg 3 =
      "EAGAIN (-3): A temporary congestion or server malfunction prevented your request from being processed. No data was altered. Retried 4 times." := by
  refine ⟨by decide, by decide, rfl⟩

/-- C7: when the quota response omits `mxfer`, the normalized account's
`downloadBandwidthTotal` is the sentinel `10 * 1024^5 = 11258999068426240`
rather than zero, and omitted `caxfer`/`csxfer` default to 0. -/
theorem c7_account_defaults (r : UQResp) :
    (normalizeAccount { r with mxfer := none }).downloadBandwidthTotal = 1024 ^ 5 * 10 ∧
    (normalizeAccount { r with caxfer := none }).downloadBandwidthUsed = 0 ∧
    (normalizeAccount { r with csxfer := none }).sharedBandwidthUsed = 0 ∧
    1024 ^ 5 * 10 = 11258999068426240 := by
  refine ⟨by simp [normalizeAccount, jsOr], by simp [normalizeAccount, jsOr],
    by simp [normalizeAccount, jsOr], by norm_num⟩

/-- C10: when the `uq` request yields an error, `getAccountInfo` invokes
the callback with the error but does not return: with the response absent
(the transport-failure path passes only `err`), the normalization still
runs and its first property read on the `undefined` response throws
(flag `true`); with a bare numeric response (exhausted-retry path) the
fall-through even invokes the callback a second time with a
default-normalized account. -/
theorem c10_error_fallthrough (e : String) :
    getAccountInfoHandler (some e) none = ([CbCall.fail e], true) ∧
    getAccountInfoHandler (some e) (some (UQValue.num (-3))) =
      ([CbCall.fail e,
        CbCall.done
          { type := none, spaceUsed := none, spaceTotal := none,
            downloadBandwidthTotal := 1024 ^ 5 * 10,
            downloadBandwidthUsed := 0, sharedBandwidthUsed := 0,
            sharedBandwidthLimit := none }], false) := by
  exact ⟨rfl, rfl⟩

/-- C1 (counterexample): the batch `[move H→P2, delete H]` — both a
delete of `H` and a move of `H` to the new parent `P2`, with the move
first — ends with `P2`'s child list EMPTY (so `H` is not a child of the
new parent) and with a delete event emitted for `H`, refuting the claim
that the outcome is order-independent. -/
theorem c1_counterexample :
    applySC sampleState [SCAction.t [mvRec], SCAction.d hH] = some c1EndState ∧
    SEvent.del hH ∈ c1EndState.events ∧
    lookupA c1EndState.files hP2 =
      some { parent := none, children := some [], timestamp := 0, attrs := "", ntype := 1 } := by
  refine ⟨by decide, by decide, by decide⟩

/-- C2 (counterexample): importing the child record `C` (parent `P`)
before the parent record `P` leaves the child an orphan: afterwards `P`
has no child list at all (`children = none`) and `C` has no parent,
refuting the claim that the child ends up linked under `P`. -/
theorem c2_counterexample :
    importFiles rootState [cRec, pRec] = c2EndState ∧
    lookupA c2EndState.files hP =
      some { parent := some hR, children := none, timestamp := 0, attrs := "", ntype := 1 } ∧
    lookupA c2EndState.files hC =
      some { parent := none, children := none, timestamp := 0, attrs := "", ntype := 0 } := by
  refine ⟨by decide, by decide, by decide⟩

/-- C4 (counterexample): two successive successful unary responses, each
carrying a sequence number, invoke `this.pull` twice — the code has no
idempotence guard, so a second long-poll loop is started while the first
is still running, refuting "at most one long-poll loop is ever active". -/
theorem c4_counterexample :
    unaryPulls true [[ApiResp.payload (some sn1)], [ApiResp.payload (some sn2)]] =
      [sn1, sn2] ∧
    (unaryPulls true [[ApiResp.payload (some sn1)], [ApiResp.payload (some sn2)]]).length = 2 := by
  refine ⟨by decide, by decide⟩

/-- C5 (counterexample): a batch holding a single delete action for a
handle absent from the graph is NOT a no-op: the delete finalization
reads `this.files[n].parent` on `undefined` and throws a `TypeError`
(modelled as `none`), refuting "no error is raised". -/
theorem c5_counterexample :
    applySC sampleState [SCAction.d hX] = none := by
  decide

/-- C9 (counterexample): after 2 calls to `reload` there are 2 registered
`'sc'` handlers, but emitting a move batch produces only ONE move event:
the second application hits the same-parent early return, refuting "each
resulting event is emitted n times". -/
theorem c9_counterexample :
    afterReloads 2 = 2 ∧
    emitSc (afterReloads 2) [SCAction.t [mvRec]] sampleState = some c9EndState ∧
    c9EndState.events = [SEvent.move hH hP1] := by
  refine ⟨rfl, by decide, by decide⟩

/-- C4 (amended): pull activation is unconditional, not idempotent —
every successful unary response with a truthy `sn` invokes `this.pull`,
so a sequence of `n` such responses produces exactly `n` pull-loop
activations. -/
theorem c4_amended (sns : List String) (hs : ∀ s ∈ sns, s ≠ "") :
    unaryPulls true (sns.map (fun s => [ApiResp.payload (some s)])) = sns := by
  induction sns with
  | nil => rfl
  | cons s rest ih =>
    have hs1 : s ≠ "" := hs s (List.mem_cons_self s rest)
    have ihr := ih (fun x hx => hs x (List.mem_cons_of_mem s hx))
    simp only [List.map_cons, unaryPulls, List.flatten_cons] at ihr ⊢
    rw [ihr]
    simp [requestRun, hs1]

/-- C4 witness: two concrete sequence numbers yield two activations. -/
theorem c4_amended_witness :
    unaryPulls true ([sn1, sn2].map (fun s => [ApiResp.payload (some s)])) = [sn1, sn2] :=
  c4_amended [sn1, sn2] (by decide)

theorem requestIds_ge : ∀ (n c0 : Nat), c0 + n ≤ 2 ^ 53 →
    ∀ x ∈ requestIds c0 n, c0 ≤ x := by
  intro n
  induction n with
  | zero => intro c0 _ x hx; simp [requestIds] at hx
  | succ k ih =>
    intro c0 hc x hx
    have hlt : c0 < 2 ^ 53 := by omega
    simp only [requestIds, jsInc, if_pos hlt, List.mem_cons] at hx
    rcases hx with hx | hx
    · omega
    · have := ih (c0 + 1) (by omega) x hx
      omega

theorem requestIds_pairwise : ∀ (n c0 : Nat), c0 + n ≤ 2 ^ 53 →
    (requestIds c0 n).Pairwise (· < ·) := by
  intro n
  induction n with
  | zero => intro c0 _; simp [requestIds]
  | succ k ih =>
    intro c0 hc
    have hlt : c0 < 2 ^ 53 := by omega
    simp only [requestIds, jsInc, if_pos hlt]
    refine List.Pairwise.cons ?_ (ih (c0 + 1) (by omega))
    intro x hx
    have := requestIds_ge k (c0 + 1) (by omega) x hx
    omega

/-- C8: every `request` call attaches an `id` query parameter (the first
query-string entry), and across any sequence of calls the ids are
strictly increasing.  The counter is a JavaScript double initialized from
a random decimal string of at most 10 digits (so below `10^10`) and
post-incremented; the hypotheses keep the whole sequence inside the range
where double increments are exact (below `2^53`). -/
theorem c8_request_ids (c0 n : Nat) (h0 : c0 < 10 ^ 10) (hn : n ≤ 2 ^ 53 - 10 ^ 10) :
    (requestIds c0 n).Pairwise (· < ·) ∧
    ∀ sid c, (requestQS sid c).head? = some ("id", toString c) := by
  refine ⟨requestIds_pairwise n c0 (by omega), ?_⟩
  intro sid c
  rfl

/-- C8 witness: a concrete counter value and sequence length. -/
theorem c8_request_ids_witness :
    (requestIds 9876543210 5).Pairwise (· < ·) ∧
    ∀ sid c, (requestQS sid c).head? = some ("id", toString c) :=
  c8_request_ids 9876543210 5 (by norm_num) (by norm_num)

/-! ## base64url roundtrip lemmas -/

theorem bytesToSextets_lt : ∀ l : List Nat, (∀ x ∈ l, x < 256) →
    ∀ y ∈ bytesToSextets l, y < 64
  | [], _ => by simp [bytesToSextets]
  | [a], h => by
    have ha := h a (by simp)
    simp [bytesToSextets]
    omega
  | [a, b], h => by
    have ha := h a (by simp)
    have hb := h b (by simp)
    simp [bytesToSextets]
    omega
  | a :: b :: c :: rest, h => by
    have ha := h a (by simp)
    have hb := h b (by simp)
    have hc := h c (by simp)
    have ih := bytesToSextets_lt rest (fun x hx => h x (by simp [hx]))
    intro y hy
    simp only [bytesToSextets, List.mem_cons] at hy
    rcases hy with h1 | h1 | h1 | h1 | h1
    · omega
    · omega
    · omega
    · omega
    · exact ih y h1

theorem sextetsToBytes_bytesToSextets : ∀ l : List Nat, (∀ x ∈ l, x < 256) →
    sextetsToBytes (bytesToSextets l) = l
  | [], _ => rfl
  | [a], h => by
    have ha := h a (by simp)
    simp [bytesToSextets, sextetsToBytes]
    omega
  | [a, b], h => by
    have ha := h a (by simp)
    have hb := h b (by simp)
    simp [bytesToSextets, sextetsToBytes]
    omega
  | a :: b :: c :: rest, h => by
    have ha := h a (by simp)
    have hb := h b (by simp)
    have hc := h c (by simp)
    have ih := sextetsToBytes_bytesToSextets rest (fun x hx => h x (by simp [hx]))
    simp [bytesToSextets, sextetsToBytes, ih]
    omega

theorem toSextet_ofSextet : ∀ n : Fin 64, toSextet (ofSextet n.val) = n.val := by
  decide

theorem map_toSextet_ofSextet : ∀ l : List Nat, (∀ y ∈ l, y < 64) →
    l.map (fun y => toSextet (ofSextet y)) = l := by
  intro l
  induction l with
  | nil => intro _; rfl
  | cons y rest ih =>
    intro h
    have hy : y < 64 := h y (by simp)
    have h1 := toSextet_ofSextet ⟨y, hy⟩
    simp only [List.map_cons, h1]
    rw [ih (fun x hx => h x (by simp [hx]))]

theorem d64_e64 (l : List Nat) (h : ∀ x ∈ l, x < 256) : d64 (e64 l) = l := by
  have hs : (String.mk ((bytesToSextets l).map ofSextet)).data =
      (bytesToSextets l).map ofSextet := rfl
  unfold d64 e64
  rw [hs, List.map_map]
  have hcomp : (bytesToSextets l).map (toSextet ∘ ofSextet) =
      (bytesToSextets l).map (fun y => toSextet (ofSextet y)) := rfl
  rw [hcomp, map_toSextet_ofSextet (bytesToSextets l) (bytesToSextets_lt l h)]
  exact sextetsToBytes_bytesToSextets l h

/-- C6: `fromJSON (toJSON s)` restores the master key (via the base64url
roundtrip), session id, account name and user id; the session id is also
copied onto the transport (`api.sid`), which attaches it to the query
string of subsequent requests; `autologin` is forced off, so the
constructor neither runs `login` nor re-derives keys (status stays
`closed`). -/
theorem c6_snapshot_roundtrip (s : StorageSession) (hk : ∀ b ∈ s.key, b < 256) :
    (fromJSON (toJSON s)).key = s.key ∧
    (fromJSON (toJSON s)).sid = s.sid ∧
    (fromJSON (toJSON s)).name = s.name ∧
    (fromJSON (toJSON s)).user = s.user ∧
    (fromJSON (toJSON s)).apiSid = s.sid ∧
    (fromJSON (toJSON s)).loginStarted = false ∧
    (fromJSON (toJSON s)).status = "closed" ∧
    (∀ v c, s.sid = some v → v ≠ "" →
      ("sid", v) ∈ requestQS (fromJSON (toJSON s)).apiSid c) := by
  refine ⟨?_, rfl, rfl, rfl, rfl, rfl, by simp [fromJSON, toJSON, storageNew], ?_⟩
  · simpa [fromJSON, toJSON, storageNew] using d64_e64 s.key hk
  · intro v c hv hne
    simp [fromJSON, toJSON, storageNew, requestQS, hv, hne]

/-- C6 witness: a concrete logged-in session roundtrips. -/
theorem c6_snapshot_roundtrip_witness :
    (fromJSON (toJSON sampleSession)).key = sampleSession.key ∧
    (fromJSON (toJSON sampleSession)).sid = sampleSession.sid ∧
    (fromJSON (toJSON sampleSession)).name = sampleSession.name ∧
    (fromJSON (toJSON sampleSession)).user = sampleSession.user ∧
    (fromJSON (toJSON sampleSession)).apiSid = sampleSession.sid ∧
    (fromJSON (toJSON sampleSession)).loginStarted = false ∧
    (fromJSON (toJSON sampleSession)).status = "closed" ∧
    (∀ v c, sampleSession.sid = some v → v ≠ "" →
      ("sid", v) ∈ requestQS (fromJSON (toJSON sampleSession)).apiSid c) :=
  c6_snapshot_roundtrip sampleSession (by decide)

/-- A sample attribute payload for witnesses. -/
def attr1 : String := "attr1"

/-- C5 (amended): an update action with an unknown handle is a genuine
no-op (the batch returns the state unchanged and raises nothing), but a
delete action with an unknown handle throws a `TypeError` at batch
finalization (`this.files[n].parent` on `undefined`) instead of being a
no-op. -/
theorem c5_amended (st : StorageSt) (h : String) (ts : Nat) (atr : String)
    (hunk : lookupA st.files h = none) :
    applySC st [SCAction.u h ts atr] = some st ∧
    applySC st [SCAction.d h] = none := by
  constructor
  · simp [applySC, scScan, hunk, scFinalize]
  · simp [applySC, scScan, hunk, scFinalize]

/-- C5 witness: the unknown handle `X` against the sample graph. -/
theorem c5_amended_witness :
    applySC sampleState [SCAction.u hX 1 attr1] = some sampleState ∧
    applySC sampleState [SCAction.d hX] = none :=
  c5_amended sampleState hX 1 attr1 (by decide)

/-- Applying a single-update batch on a known handle: the node's
timestamp/attributes are rewritten and exactly one update event is
appended. -/
theorem applySC_update (st : StorageSt) (h : String) (ts : Nat) (atr : String)
    (fl : FNode) (hf : lookupA st.files h = some fl) :
    applySC st [SCAction.u h ts atr] =
      some { st with
               files := modifyA st.files h (fun x => { x with timestamp := ts, attrs := atr }),
               events := st.events ++ [SEvent.update h] } := by
  simp [applySC, scScan, hf, scFinalize]

/-- C9 (amended): each `reload` registers one more `'sc'` listener (n
reloads leave n copies), so an incoming batch is processed by the handler
n times in sequence; re-emission depends on the actions — an update batch
on a known handle does emit its update event n times (the handle stays
present across applications). -/
theorem c9_amended (n : Nat) (st : StorageSt) (h : String) (ts : Nat) (atr : String)
    (fl : FNode) (hf : lookupA st.files h = some fl) :
    afterReloads n = n ∧
    ∃ st', emitSc n [SCAction.u h ts atr] st = some st' ∧
      st'.events = st.events ++ List.replicate n (SEvent.update h) := by
  have ha : ∀ m : Nat, afterReloads m = m := by
    intro m
    induction m with
    | zero => rfl
    | succ k ih => simp [afterReloads, reloadOnSc, ih]
  refine ⟨ha n, ?_⟩
  induction n generalizing st fl with
  | zero => exact ⟨st, rfl, by simp⟩
  | succ k ih =>
    have hf1 : lookupA
        (modifyA st.files h (fun x => { x with timestamp := ts, attrs := atr })) h =
        some { fl with timestamp := ts, attrs := atr } := by
      rw [lookupA_modifyA]
      simp [hf]
    obtain ⟨st', h1, h2⟩ :=
      ih { st with
             files := modifyA st.files h (fun x => { x with timestamp := ts, attrs := atr }),
             events := st.events ++ [SEvent.update h] }
         { fl with timestamp := ts, attrs := atr } hf1
    refine ⟨st', ?_, ?_⟩
    · simp only [emitSc, applySC_update st h ts atr fl hf]
      exact h1
    · rw [h2]
      simp [List.replicate_succ]

/-- C9 witness: two reloads, one update batch, two update events. -/
theorem c9_amended_witness :
    afterReloads 2 = 2 ∧
    ∃ st', emitSc 2 [SCAction.u hH 7 attr1] sampleState = some st' ∧
      st'.events = sampleState.events ++ List.replicate 2 (SEvent.update hH) :=
  c9_amended 2 sampleState hH 7 attr1 nodeH (by decide)

/-! ## importFile characterizations -/

theorem importFile_known (st : StorageSt) (f : FileRec) (v : FNode)
    (hk : lookupA st.files f.h = some v) : importFile st f = st := by
  simp [importFile, hk]

theorem importFile_root (st : StorageSt) (f : FileRec)
    (hnew : lookupA st.files f.h = none) (hp : f.p = none) :
    (importFile st f).files = st.files ++ [(f.h, newNode f.t)] := by
  simp [importFile, hnew, hp]

theorem importFile_orphan (st : StorageSt) (f : FileRec) (p : String)
    (hnew : lookupA st.files f.h = none) (hp : f.p = some p)
    (hnp : lookupA (st.files ++ [(f.h, newNode f.t)]) p = none) :
    (importFile st f).files = st.files ++ [(f.h, newNode f.t)] := by
  simp [importFile, hnew, hp, hnp]

theorem importFile_link (st : StorageSt) (f : FileRec) (p : String) (pn : FNode)
    (hnew : lookupA st.files f.h = none) (hp : f.p = some p)
    (hpn : lookupA (st.files ++ [(f.h, newNode f.t)]) p = some pn) :
    (importFile st f).files =
      modifyA
        (modifyA (st.files ++ [(f.h, newNode f.t)])
          p (fun x => { x with children := some (childList pn ++ [f.h]) }))
        f.h (fun x => { x with parent := some p }) := by
  simp [importFile, hnew, hp, hpn]

theorem importFile_events (st : StorageSt) (f : FileRec) :
    (importFile st f).events = st.events := by
  unfold importFile
  cases h1 : lookupA st.files f.h with
  | some _ => rfl
  | none =>
    cases h2 : f.p with
    | none => rfl
    | some p =>
      cases h3 : lookupA (st.files ++ [(f.h, newNode f.t)]) p with
      | none => simp [h3]
      | some pn => simp [h3]

/-- C2 (amended): `_importFile` links a child exactly once when the
parent record is already present (no duplicate child entries), but it
never links retroactively: importing a child record before its parent
record, then the parent record, leaves the child with no parent and the
parent with no children. -/
theorem c2_amended
    (st1 st2 : StorageSt) (c p : String) (rc rp : FileRec)
    (hrch : rc.h = c) (hrcp : rc.p = some p)
    (hrph : rp.h = p) (hrpp : rp.p = none)
    (pn : FNode)
    (hA1 : lookupA st1.files c = none) (hA2 : lookupA st1.files p = some pn)
    (hcount : (childList pn).count c = 0)
    (hB1 : lookupA st2.files c = none) (hB2 : lookupA st2.files p = none)
    (hcp : c ≠ p) :
    ((lookupA (importFile st1 rc).files p).map FNode.children =
        some (some (childList pn ++ [c])) ∧
     (childList pn ++ [c]).count c = 1 ∧
     (lookupA (importFile st1 rc).files c).map FNode.parent = some (some p)) ∧
    ((lookupA (importFiles st2 [rc, rp]).files c).map FNode.parent = some none ∧
     (lookupA (importFiles st2 [rc, rp]).files p).map FNode.children = some none) := by
  have hpc : p ≠ c := fun he => hcp he.symm
  have hnew1 : lookupA st1.files rc.h = none := by rw [hrch]; exact hA1
  have hl1 : lookupA (st1.files ++ [(rc.h, newNode rc.t)]) p = some pn := by
    rw [lookupA_append, hrch, hA2]
  have hfiles1 := importFile_link st1 rc p pn hnew1 hrcp hl1
  constructor
  · refine ⟨?_, ?_, ?_⟩
    · rw [hfiles1, hrch, lookupA_modifyA, if_neg hpc, lookupA_modifyA, if_pos rfl]
      rw [hrch] at hl1
      rw [hl1]
      rfl
    · rw [List.count_append, hcount]
      simp
    · rw [hfiles1, hrch, lookupA_modifyA, if_pos rfl, lookupA_modifyA, if_neg hcp]
      have hc1 : lookupA (st1.files ++ [(c, newNode rc.t)]) c = some (newNode rc.t) := by
        rw [lookupA_append, hA1]
        simp [lookupA]
      rw [hc1]
      rfl
  · have hnpB : lookupA (st2.files ++ [(rc.h, newNode rc.t)]) p = none := by
      rw [lookupA_append, hrch, hB2]
      simp [lookupA, hcp]
    have hnewB : lookupA st2.files rc.h = none := by rw [hrch]; exact hB1
    have hfA := importFile_orphan st2 rc p hnewB hrcp hnpB
    have hstep : importFiles st2 [rc, rp] = importFile (importFile st2 rc) rp := rfl
    have hnewP : lookupA (importFile st2 rc).files rp.h = none := by
      rw [hfA, hrph]
      rw [hrch] at hnpB
      rw [hrch]
      exact hnpB
    have hfB := importFile_root (importFile st2 rc) rp hnewP hrpp
    constructor
    · rw [hstep, hfB, hfA, hrch, lookupA_append]
      have hin : lookupA (st2.files ++ [(c, newNode rc.t)]) c = some (newNode rc.t) := by
        rw [lookupA_append, hB1]
        simp [lookupA]
      rw [hin]
      rfl
    · rw [hstep, hfB, hfA, hrch, hrph, lookupA_append]
      rw [hrch] at hnpB
      rw [hnpB]
      simp [lookupA, newNode]

/-- An empty parent node for the C2 witness. -/
def pNodeEmpty : FNode :=
  { parent := none, children := none, timestamp := 0, attrs := "", ntype := 1 }

/-- A one-node graph holding only the (empty) parent `P`. -/
def c2StateA : StorageSt :=
  { files := [(hP, pNodeEmpty)], mounts := [], root := none, trash := none,
    inbox := none, events := [] }

/-- A parent record with no parent handle of its own. -/
def pRec0 : FileRec := { h := hP, p := none, t := 1 }

/-- C2 witness: concrete parent-first linking and child-first orphan. -/
theorem c2_amended_witness :
    ((lookupA (importFile c2StateA cRec).files hP).map FNode.children =
        some (some (childList pNodeEmpty ++ [hC])) ∧
     (childList pNodeEmpty ++ [hC]).count hC = 1 ∧
     (lookupA (importFile c2StateA cRec).files hC).map FNode.parent = some (some hP)) ∧
    ((lookupA (importFiles rootState [cRec, pRec0]).files hC).map FNode.parent = some none ∧
     (lookupA (importFiles rootState [cRec, pRec0]).files hP).map FNode.children = some none) :=
  c2_amended c2StateA rootState hC hP cRec pRec0 rfl rfl rfl rfl pNodeEmpty
    (by decide) (by decide) (by decide) (by decide) (by decide) (by decide)

/-! ## Batch-scan invariants (for the delete/move ordering claim) -/

/-- Whether an action is a buffered delete (`'d'`). -/
def isD : SCAction → Bool
  | SCAction.d _ => true
  | _ => false

/-- Whether a `'t'` action carries a move/creation of handle `H`. -/
def movesHandle (H : String) : SCAction → Bool
  | SCAction.t moves => moves.any (fun f => f.h = H)
  | _ => false

theorem importFile_preserves (st : StorageSt) (f : FileRec) (H : String) (nd : FNode)
    (hH : lookupA st.files H = some nd) :
    ∃ nd', lookupA (importFile st f).files H = some nd' ∧ nd'.parent = nd.parent := by
  cases hk : lookupA st.files f.h with
  | some v =>
    rw [importFile_known st f v hk]
    exact ⟨nd, hH, rfl⟩
  | none =>
    have happ : lookupA (st.files ++ [(f.h, newNode f.t)]) H = some nd := by
      rw [lookupA_append, hH]
    cases hp : f.p with
    | none =>
      rw [importFile_root st f hk hp]
      exact ⟨nd, happ, rfl⟩
    | some p =>
      cases hnp : lookupA (st.files ++ [(f.h, newNode f.t)]) p with
      | none =>
        rw [importFile_orphan st f p hk hp hnp]
        exact ⟨nd, happ, rfl⟩
      | some pn =>
        rw [importFile_link st f p pn hk hp hnp]
        have hfh : ¬ H = f.h := by
          intro he
          rw [he, hk] at hH
          cases hH
        rw [lookupA_modifyA, if_neg hfh, lookupA_modifyA]
        by_cases hHp : H = p
        · rw [if_pos hHp, happ]
          exact ⟨_, rfl, rfl⟩
        · rw [if_neg hHp, happ]
          exact ⟨nd, rfl, rfl⟩

/-- A successful `'t'`-entry for a handle other than `H` leaves the
pending-delete set unchanged (when it held at most `H`), preserves `H`'s
node and parent pointer, and emits no delete event. -/
theorem scMove_inv (H : String) (st : StorageSt) (del : List String) (f : FileRec)
    (st' : StorageSt) (del' : List String)
    (hne : ¬ f.h = H) (hdel : ∀ x ∈ del, x = H)
    (hrun : scMove st del f = some (st', del')) :
    del' = del ∧
    (∀ nd, lookupA st.files H = some nd →
       ∃ nd', lookupA st'.files H = some nd' ∧ nd'.parent = nd.parent) ∧
    (∃ es, st'.events = st.events ++ es ∧ ∀ e ∈ es, ∀ x, e ≠ SEvent.del x) := by
  have herase : del.erase f.h = del := by
    apply List.erase_of_not_mem
    intro hmem
    exact hne (hdel f.h hmem)
  unfold scMove at hrun
  split at hrun
  case h_1 file hfile =>
    split at hrun
    case h_1 => cases hrun
    case h_2 opH hop =>
      split at hrun
      · -- same-parent early return
        simp only [Option.some.injEq, Prod.mk.injEq] at hrun
        obtain ⟨h1, h2⟩ := hrun
        subst h1
        refine ⟨by rw [← h2, herase], ?_, ⟨[], by simp, by simp⟩⟩
        intro nd hnd
        exact ⟨nd, hnd, rfl⟩
      · split at hrun
        case h_1 => cases hrun
        case h_2 op hopn =>
          split at hrun
          case h_1 => cases hrun
          case h_2 cs hcs =>
            split at hrun
            case h_1 => cases hrun
            case h_2 npH hfp =>
              dsimp only at hrun
              split at hrun
              case h_1 => cases hrun
              case h_2 np hnp =>
                simp only [Option.some.injEq, Prod.mk.injEq] at hrun
                obtain ⟨h1, h2⟩ := hrun
                subst h1
                refine ⟨by rw [← h2, herase], ?_, ⟨[SEvent.move f.h opH], rfl, by simp⟩⟩
                intro nd hnd
                have hHfh : ¬ H = f.h := fun hx => hne hx.symm
                simp only [lookupA_modifyA, if_neg hHfh, hnd]
                by_cases h1 : H = npH <;> by_cases h2 : H = opH <;> simp [h1, h2] <;>
                  split <;> simp
  case h_2 hnone =>
    simp only [Option.some.injEq, Prod.mk.injEq] at hrun
    obtain ⟨h1, h2⟩ := hrun
    subst h1
    refine ⟨h2.symm, ?_, ⟨[SEvent.add f.h], by rw [importFile_events], by simp⟩⟩
    intro nd hnd
    exact importFile_preserves st f H nd hnd

/-- Lifting `scMove_inv` over a whole `'t'` move list. -/
theorem scMovesRun_inv (H : String) : ∀ (moves : List FileRec) (st : StorageSt)
    (del : List String) (st' : StorageSt) (del' : List String),
    (∀ f ∈ moves, ¬ f.h = H) → (∀ x ∈ del, x = H) →
    scMovesRun st del moves = some (st', del') →
    del' = del ∧
    (∀ nd, lookupA st.files H = some nd →
       ∃ nd', lookupA st'.files H = some nd' ∧ nd'.parent = nd.parent) ∧
    (∃ es, st'.events = st.events ++ es ∧ ∀ e ∈ es, ∀ x, e ≠ SEvent.del x) := by
  intro moves
  induction moves with
  | nil =>
    intro st del st' del' _ _ hrun
    simp only [scMovesRun, Option.some.injEq, Prod.mk.injEq] at hrun
    obtain ⟨h1, h2⟩ := hrun
    subst h1
    exact ⟨h2.symm, fun nd hnd => ⟨nd, hnd, rfl⟩, ⟨[], by simp, by simp⟩⟩
  | cons f rest ih =>
    intro st del st' del' hm hdel hrun
    simp only [scMovesRun] at hrun
    cases hsm : scMove st del f with
    | none => rw [hsm] at hrun; cases hrun
    | some pair =>
      obtain ⟨st1, del1⟩ := pair
      rw [hsm] at hrun
      dsimp only at hrun
      obtain ⟨hd1, hp1, es1, he1, hne1⟩ :=
        scMove_inv H st del f st1 del1 (hm f (by simp)) hdel hsm
      have hdel1 : ∀ x ∈ del1, x = H := by rw [hd1]; exact hdel
      obtain ⟨hd2, hp2, es2, he2, hne2⟩ :=
        ih st1 del1 st' del' (fun g hg => hm g (by simp [hg])) hdel1 hrun
      refine ⟨by rw [hd2, hd1], ?_, ⟨es1 ++ es2, by rw [he2, he1, List.append_assoc], ?_⟩⟩
      · intro nd hnd
        obtain ⟨nd1, hnd1, hp⟩ := hp1 nd hnd
        obtain ⟨nd2, hnd2, hq⟩ := hp2 nd1 hnd1
        exact ⟨nd2, hnd2, by rw [hq, hp]⟩
      · intro e he x
        rcases List.mem_append.mp he with h | h
        · exact hne1 e h x
        · exact hne2 e h x

/-- Scanning a sequence of actions that contains no deletes and no moves
of `H` leaves the pending-delete set unchanged (when it held at most
`H`), preserves `H`'s node and parent pointer, and emits no delete
events. -/
theorem scScan_inv (H : String) : ∀ (acts : List SCAction) (st : StorageSt)
    (del : List String) (st' : StorageSt) (del' : List String),
    (∀ a ∈ acts, isD a = false) → (∀ a ∈ acts, movesHandle H a = false) →
    (∀ x ∈ del, x = H) →
    scScan st del acts = some (st', del') →
    del' = del ∧
    (∀ nd, lookupA st.files H = some nd →
       ∃ nd', lookupA st'.files H = some nd' ∧ nd'.parent = nd.parent) ∧
    (∃ es, st'.events = st.events ++ es ∧ ∀ e ∈ es, ∀ x, e ≠ SEvent.del x) := by
  intro acts
  induction acts with
  | nil =>
    intro st del st' del' _ _ _ hrun
    simp only [scScan, Option.some.injEq, Prod.mk.injEq] at hrun
    obtain ⟨h1, h2⟩ := hrun
    subst h1
    exact ⟨h2.symm, fun nd hnd => ⟨nd, hnd, rfl⟩, ⟨[], by simp, by simp⟩⟩
  | cons a rest ih =>
    intro st del st' del' hD hM hdel hrun
    have hDr : ∀ b ∈ rest, isD b = false := fun b hb => hD b (by simp [hb])
    have hMr : ∀ b ∈ rest, movesHandle H b = false := fun b hb => hM b (by simp [hb])
    cases a with
    | u n ts atr =>
      simp only [scScan] at hrun
      cases hk : lookupA st.files n with
      | some v =>
        rw [hk] at hrun
        dsimp only at hrun
        obtain ⟨hd2, hp2, es2, he2, hne2⟩ := ih _ _ _ _ hDr hMr hdel hrun
        refine ⟨hd2, ?_, ⟨SEvent.update n :: es2, ?_, ?_⟩⟩
        · intro nd hnd
          have hnd1 : ∃ nd1,
              lookupA (modifyA st.files n
                (fun x => { x with timestamp := ts, attrs := atr })) H = some nd1 ∧
              nd1.parent = nd.parent := by
            rw [lookupA_modifyA]
            by_cases hHn : H = n
            · rw [if_pos hHn, hnd]
              exact ⟨_, rfl, rfl⟩
            · rw [if_neg hHn, hnd]
              exact ⟨nd, rfl, rfl⟩
          obtain ⟨nd1, hnd1, hp⟩ := hnd1
          obtain ⟨nd2, hnd2, hq⟩ := hp2 nd1 hnd1
          exact ⟨nd2, hnd2, by rw [hq, hp]⟩
        · rw [he2]
          simp
        · intro e he x
          rcases List.mem_cons.mp he with h | h
          · rw [h]; intro hc; cases hc
          · exact hne2 e h x
      | none =>
        rw [hk] at hrun
        dsimp only at hrun
        exact ih _ _ _ _ hDr hMr hdel hrun
    | d n =>
      have := hD (SCAction.d n) (by simp)
      simp [isD] at this
    | t moves =>
      simp only [scScan] at hrun
      cases hm : scMovesRun st del moves with
      | none => rw [hm] at hrun; cases hrun
      | some pair =>
        obtain ⟨st1, del1⟩ := pair
        rw [hm] at hrun
        dsimp only at hrun
        have hmoves : ∀ f ∈ moves, ¬ f.h = H := by
          have hMH := hM (SCAction.t moves) (by simp)
          simp only [movesHandle, List.any_eq_false, decide_eq_false_iff_not] at hMH
          intro f hf
          have := hMH f hf
          simpa using this
        obtain ⟨hd1, hp1, es1, he1, hne1⟩ :=
          scMovesRun_inv H moves st del st1 del1 hmoves hdel hm
        have hdel1 : ∀ x ∈ del1, x = H := by rw [hd1]; exact hdel
        obtain ⟨hd2, hp2, es2, he2, hne2⟩ := ih st1 del1 st' del' hDr hMr hdel1 hrun
        refine ⟨by rw [hd2, hd1], ?_, ⟨es1 ++ es2, by rw [he2, he1, List.append_assoc], ?_⟩⟩
        · intro nd hnd
          obtain ⟨nd1, hnd1, hp⟩ := hp1 nd hnd
          obtain ⟨nd2, hnd2, hq⟩ := hp2 nd1 hnd1
          exact ⟨nd2, hnd2, by rw [hq, hp]⟩
        · intro e he x
          rcases List.mem_append.mp he with h | h
          · exact hne1 e h x
          · exact hne2 e h x

/-- Scanning an appended action list is sequential composition. -/
theorem scScan_append (l1 l2 : List SCAction) : ∀ (st : StorageSt) (del : List String),
    scScan st del (l1 ++ l2) =
      match scScan st del l1 with
      | none => none
      | some (s, d) => scScan s d l2 := by
  induction l1 with
  | nil => intro st del; simp [scScan]
  | cons a rest ih =>
    intro st del
    cases a with
    | u n ts atr =>
      simp only [List.cons_append, scScan]
      cases hk : lookupA st.files n with
      | some v => dsimp only; exact ih _ _
      | none => dsimp only; exact ih _ _
    | d n =>
      simp only [List.cons_append, scScan]
      exact ih _ _
    | t moves =>
      simp only [List.cons_append, scScan]
      cases hm : scMovesRun st del moves with
      | none => rfl
      | some pair =>
        obtain ⟨s, d⟩ := pair
        dsimp only
        exact ih _ _

/-- C1 (amended): in a batch where the delete for `H` PRECEDES the move
of `H` to a new, distinct parent `P2` (and no other delete actions and no
other moves of `H` occur), applying the batch leaves `H` present under
`P2` and emits no delete event for `H`.  (The counterexample shows the
claimed order-independence fails when the move comes first.) -/
theorem c1_amended
    (st st' : StorageSt) (pre mid : List SCAction) (H P1 P2 : String) (mv : FileRec)
    (nd0 : FNode)
    (hmvh : mv.h = H) (hmvp : mv.p = some P2)
    (hH0 : lookupA st.files H = some nd0) (hpar : nd0.parent = some P1)
    (hP12 : P1 ≠ P2) (hHP2 : H ≠ P2)
    (hDpre : ∀ a ∈ pre, isD a = false) (hMpre : ∀ a ∈ pre, movesHandle H a = false)
    (hDmid : ∀ a ∈ mid, isD a = false) (hMmid : ∀ a ∈ mid, movesHandle H a = false)
    (hdelev : SEvent.del H ∉ st.events)
    (hrun : applySC st (pre ++ SCAction.d H :: (mid ++ [SCAction.t [mv]])) = some st') :
    (∃ nd', lookupA st'.files H = some nd' ∧ nd'.parent = some P2) ∧
    (∃ pn cs, lookupA st'.files P2 = some pn ∧ pn.children = some cs ∧ H ∈ cs) ∧
    SEvent.del H ∉ st'.events := by
  unfold applySC at hrun
  cases hscan : scScan st [] (pre ++ SCAction.d H :: (mid ++ [SCAction.t [mv]])) with
  | none => rw [hscan] at hrun; cases hrun
  | some pair1 =>
    obtain ⟨s1, d1⟩ := pair1
    rw [hscan] at hrun
    dsimp only at hrun
    rw [scScan_append] at hscan
    cases hpre : scScan st [] pre with
    | none =>
      simp only [hpre] at hscan
      cases hscan
    | some pairA =>
      obtain ⟨sa, da⟩ := pairA
      simp only [hpre] at hscan
      obtain ⟨hdA, hpA, esA, heA, hneA⟩ :=
        scScan_inv H pre st [] sa da hDpre hMpre (by simp) hpre
      subst hdA
      simp only [scScan] at hscan
      rw [if_neg (List.not_mem_nil H)] at hscan
      simp only [List.nil_append] at hscan
      rw [scScan_append] at hscan
      cases hmid : scScan sa [H] mid with
      | none =>
        simp only [hmid] at hscan
        cases hscan
      | some pairB =>
        obtain ⟨sb, db⟩ := pairB
        simp only [hmid] at hscan
        obtain ⟨hdB, hpB, esB, heB, hneB⟩ :=
          scScan_inv H mid sa [H] sb db hDmid hMmid (by simp) hmid
        subst hdB
        simp only [scScan] at hscan
        cases hmv : scMovesRun sb [H] [mv] with
        | none =>
          simp only [hmv] at hscan
          cases hscan
        | some pairC =>
          obtain ⟨sc1, dc1⟩ := pairC
          simp only [hmv, scScan, Option.some.injEq, Prod.mk.injEq] at hscan
          obtain ⟨hsc, hdc⟩ := hscan
          subst hsc
          subst hdc
          simp only [scMovesRun] at hmv
          cases hsm : scMove sb [H] mv with
          | none => rw [hsm] at hmv; cases hmv
          | some pairD =>
            obtain ⟨sd, dd⟩ := pairD
            rw [hsm] at hmv
            simp only [scMovesRun, Option.some.injEq, Prod.mk.injEq] at hmv
            obtain ⟨hsd, hdd⟩ := hmv
            subst hsd
            subst hdd
            -- H is present in sb with its original parent P1
            obtain ⟨nda, hnda, hparA⟩ := hpA nd0 hH0
            obtain ⟨ndb, hndb, hparB⟩ := hpB nda hnda
            have hparb : ndb.parent = some P1 := by rw [hparB, hparA, hpar]
            -- analyze the final move
            unfold scMove at hsm
            rw [hmvh, hmvp, hndb] at hsm
            dsimp only at hsm
            rw [hparb] at hsm
            dsimp only at hsm
            have hne12 : ¬ ((some P1 : Option String) = some P2) := by
              simp [hP12]
            rw [if_neg hne12] at hsm
            split at hsm
            case h_1 => cases hsm
            case h_2 op hop =>
              split at hsm
              case h_1 => cases hsm
              case h_2 cs hcs =>
                split at hsm
                case h_1 => cases hsm
                case h_2 np hnp =>
                  simp only [Option.some.injEq, Prod.mk.injEq] at hsm
                  obtain ⟨hfin1, hfin2⟩ := hsm
                  have hderase : ([H].erase H : List String) = [] := by simp
                  rw [hderase] at hfin2
                  subst hfin2
                  simp only [scFinalize, Option.some.injEq] at hrun
                  subst hrun
                  rw [← hfin1]
                  have hP2H : ¬ P2 = H := fun hx => hHP2 hx.symm
                  have hP2P1 : ¬ P2 = P1 := fun hx => hP12 hx.symm
                  refine ⟨?_, ?_, ?_⟩
                  · simp only [lookupA_modifyA, if_neg hHP2, if_pos rfl]
                    by_cases hHP1 : H = P1 <;> simp [hHP1, hndb, hop]
                  · refine ⟨{ np with children := some (childList np ++ [H]) },
                      childList np ++ [H], ?_, rfl, by simp⟩
                    rw [lookupA_modifyA, if_pos rfl, lookupA_modifyA, if_neg hP2H, hnp]
                    rfl
                  · simp only [List.mem_append]
                    intro hmem
                    rcases hmem with hmem | hmem
                    · rw [heB] at hmem
                      rcases List.mem_append.mp hmem with hmem | hmem
                      · rw [heA] at hmem
                        rcases List.mem_append.mp hmem with hmem | hmem
                        · exact hdelev hmem
                        · exact hneA _ hmem H rfl
                      · exact hneB _ hmem H rfl
                    · simp at hmem

/-- End state of `applySC sampleState [d hH, t [mvRec]]`: H moved under
P2, no delete. -/
def c1DtEnd : StorageSt :=
  { files := [(hP1, { nodeP1 with children := some [] }),
              (hP2, { nodeP2 with children := some [hH] }),
              (hH, { nodeH with parent := some hP2 })],
    mounts := [], root := none, trash := none, inbox := none,
    events := [SEvent.move hH hP1] }

/-- C1 witness: the concrete delete-then-move batch on the sample graph. -/
theorem c1_amended_witness :
    (∃ nd', lookupA c1DtEnd.files hH = some nd' ∧ nd'.parent = some hP2) ∧
    (∃ pn cs, lookupA c1DtEnd.files hP2 = some pn ∧ pn.children = some cs ∧ hH ∈ cs) ∧
    SEvent.del hH ∉ c1DtEnd.events :=
  c1_amended sampleState c1DtEnd [] [] hH hP1 hP2 mvRec nodeH rfl rfl (by decide) rfl
    (by decide) (by decide) (by simp) (by simp) (by simp) (by simp) (by decide)
    (by decide)

end Mega
